import Mathlib

/-!
Verification development for the NekoTab resource-lifecycle orchestrator:
the tournament retention engine (`tabbycat/retention/engine.py`,
`tabbycat/retention/exporters.py`), the retention management command
(`tabbycat/retention/management/commands/purge_tournaments.py`), and the
control-plane tenant provisioner
(`infrastructure/control-plane/app/provisioner.py`).

The Python code is shallowly embedded: Django model rows become Lean
structures, the database state becomes explicit lists threaded through each
operation, timestamps are integers counting seconds, and every external
effect (the export functions, the cascading delete transaction, database /
Docker / migration steps) is an injected oracle so that failure injection is
expressible.  Raised exceptions are modelled by `Except String` / explicit
error branches that carry the exception's rendered message (`str(exc)`).
-/

set_option linter.unusedVariables false

/-- Seconds in one hour, for `timedelta(hours=h)`. -/
def secondsPerHour : Int := 3600

/-- Seconds in one day, for `timedelta(days=d)`. -/
def secondsPerDay : Int := 86400

/-! ## Retention data model (`tabbycat/retention/models.py` and the
`Tournament` fields read by `tabbycat/retention/engine.py`) -/

/-- `TournamentDeletionLog.Status` choices. -/
inductive LogStatus where
  | SCHEDULED
  | EXPORTED
  | DELETED
  | FAILED
  | SKIPPED
  | DRY_RUN
deriving DecidableEq, Repr

/-- One `Tournament` row, restricted to the fields the retention engine
reads: pk, slug, name, the retention columns, owner contact data (the
result of `_owner_info`), and the child-row counts that
`_snapshot_counts` computes (`team_set.count()`, `round_set.count()`,
`Debate.objects.filter(...).count()`).  A row carries its dependent data;
cascade deletion removes the whole record from the state. -/
structure Tournament where
  id : Nat
  slug : String
  name : String
  retention_exempt : Bool
  created_at : Int
  scheduled_for_deletion_at : Option Int
  owner_email : String
  owner_username : String
  team_count : Nat
  round_count : Nat
  debate_count : Nat
deriving DecidableEq, Repr

/-- One `TournamentDeletionLog` row. -/
structure TournamentDeletionLog where
  tournament_id : Nat
  slug : String
  name : String
  owner_email : String
  owner_username : String
  team_count : Nat
  round_count : Nat
  debate_count : Nat
  status : LogStatus
  archive_path : String
  error_message : String
deriving DecidableEq, Repr

/-- The Django settings the engine reads via `getattr(settings, ...)`. -/
structure RetentionSettings where
  retention_days : Int
  mode : String
  grace_hours : Int
deriving DecidableEq, Repr

/-- The mutable database state seen by the retention engine: the
`Tournament` table and the append-only `TournamentDeletionLog` table. -/
structure RetentionState where
  tournaments : List Tournament
  logs : List TournamentDeletionLog
deriving DecidableEq, Repr

/-- `_get_retention_days(override)`: the override if not `None`, else the
`TOURNAMENT_RETENTION_DAYS` setting. -/
def getRetentionDays (s : RetentionSettings) (override : Option Int) : Int :=
  match override with
  | some d => d
  | none => s.retention_days

/-- `_get_mode(override)`: the override if not `None`, else the
`TOURNAMENT_RETENTION_MODE` setting. -/
def getMode (s : RetentionSettings) (override : Option String) : String :=
  match override with
  | some m => m
  | none => s.mode

/-- `_get_grace_hours()`: the `TOURNAMENT_RETENTION_GRACE_HOURS` setting. -/
def getGraceHours (s : RetentionSettings) : Int :=
  s.grace_hours

/-- Build a `TournamentDeletionLog` row from a tournament, as every
`TournamentDeletionLog.objects.create(...)` call in the engine does:
identity and owner fields are copied from the tournament, the snapshot
counts come from `_snapshot_counts`, and `archive_path` / `error_message`
default to the empty string when not passed. -/
def mkDeletionLog (t : Tournament) (status : LogStatus)
    (archive errMsg : String) : TournamentDeletionLog :=
  { tournament_id := t.id
    slug := t.slug
    name := t.name
    owner_email := t.owner_email
    owner_username := t.owner_username
    team_count := t.team_count
    round_count := t.round_count
    debate_count := t.debate_count
    status := status
    archive_path := archive
    error_message := errMsg }

/-- `get_eligible_tournaments(retention_days)`: empty when the effective
retention window is ≤ 0, otherwise the tournaments that are not exempt,
were created on or before `now - timedelta(days=days)`, and have a null
`scheduled_for_deletion_at`. -/
def get_eligible_tournaments (s : RetentionSettings) (override : Option Int)
    (now : Int) (ts : List Tournament) : List Tournament :=
  let days := getRetentionDays s override
  if days ≤ 0 then []
  else
    let cutoff := now - days * secondsPerDay
    ts.filter (fun t =>
      !t.retention_exempt && decide (t.created_at ≤ cutoff) &&
        t.scheduled_for_deletion_at.isNone)

/-- `get_scheduled_for_deletion()`: tournaments that are not exempt and
whose `scheduled_for_deletion_at` is non-null and ≤ now. -/
def get_scheduled_for_deletion (now : Int) (ts : List Tournament) :
    List Tournament :=
  ts.filter (fun t =>
    !t.retention_exempt &&
      (match t.scheduled_for_deletion_at with
       | some d => decide (d ≤ now)
       | none => false))

/-- `t.scheduled_for_deletion_at = deletion_at; t.save(...)`. -/
def setScheduled (dat : Int) (u : Tournament) : Tournament :=
  { u with scheduled_for_deletion_at := some dat }

/-- One iteration of the `schedule_eligible` loop body, acting on the
accumulated (state, result-list) pair.  In dry-run a `DRY_RUN` log row is
created and nothing is mutated; otherwise `scheduled_for_deletion_at` is
saved on the row with pk `t.id` and a `SCHEDULED` log row is created.
Owner e-mail notification is best-effort and touches no database state, so
it does not appear in the state transition. -/
def schedStep (dry : Bool) (dat : Int)
    (acc : RetentionState × List (Tournament × TournamentDeletionLog))
    (t : Tournament) :
    RetentionState × List (Tournament × TournamentDeletionLog) :=
  if dry then
    let log := mkDeletionLog t LogStatus.DRY_RUN ("") ("")
    ({ acc.1 with logs := acc.1.logs ++ [log] }, acc.2 ++ [(t, log)])
  else
    let log := mkDeletionLog t LogStatus.SCHEDULED ("") ("")
    ({ tournaments :=
         acc.1.tournaments.map
           (fun u => if u.id == t.id then setScheduled dat u else u)
       logs := acc.1.logs ++ [log] },
     acc.2 ++ [(setScheduled dat t, log)])

/-- `schedule_eligible(retention_days, dry_run)`: compute
`deletion_at = now + timedelta(hours=grace_hours)` once, then run the loop
body over the eligible queryset (evaluated against the incoming state).
Returns the final state and the list of `(tournament, log)` pairs. -/
def schedule_eligible (s : RetentionSettings) (retentionDays : Option Int)
    (dry : Bool) (now : Int) (st : RetentionState) :
    RetentionState × List (Tournament × TournamentDeletionLog) :=
  let dat := now + getGraceHours s * secondsPerHour
  (get_eligible_tournaments s retentionDays now st.tournaments).foldl
    (schedStep dry dat) (st, [])

/-- Outcome of the export oracle: the archive path on success, or the
rendered message of the raised exception. -/
inductive ExportResult where
  | ok (path : String)
  | err (msg : String)
deriving DecidableEq, Repr

/-- Injected effects for `process_deletions`: `export_fn` models
`_export(t)` (which may raise), and `delete_fn` models the atomic
`transaction.atomic(): _clear_caches(t); t.delete()` block — `some msg`
means the transaction raised with message `msg` and was rolled back. -/
structure RetentionEffects where
  export_fn : Tournament → ExportResult
  delete_fn : Tournament → Option String

/-- The `try`-block of the `process_deletions` loop body for one
tournament (non-dry-run).  Returns: whether the row was deleted, the log
rows created (in creation order), and the `(slug, log-or-None)` result
entry appended by the source.  In `EXPORT_THEN_DELETE` mode the export
runs first; if it raises, the `except` branch creates a `FAILED` log with
`error_message = str(exc)` and the tournament is left untouched.  After a
successful export an `EXPORTED` log (with the archive path) is created;
if the delete transaction then raises, it is rolled back and the `except`
branch creates a `FAILED` log.  On full success a `DELETED` log is
created.  In any other mode the export is skipped and `archive_path`
stays empty. -/
def processOne (mode : String) (eff : RetentionEffects) (t : Tournament) :
    Bool × List TournamentDeletionLog × (String × Option TournamentDeletionLog) :=
  if mode == "EXPORT_THEN_DELETE" then
    match eff.export_fn t with
    | ExportResult.err m =>
        (false, [mkDeletionLog t LogStatus.FAILED ("") m], (t.slug, none))
    | ExportResult.ok path =>
        let exported := mkDeletionLog t LogStatus.EXPORTED path ("")
        match eff.delete_fn t with
        | some m =>
            (false, [exported, mkDeletionLog t LogStatus.FAILED ("") m],
             (t.slug, none))
        | none =>
            let deleted := mkDeletionLog t LogStatus.DELETED path ("")
            (true, [exported, deleted], (t.slug, some deleted))
  else
    match eff.delete_fn t with
    | some m =>
        (false, [mkDeletionLog t LogStatus.FAILED ("") m], (t.slug, none))
    | none =>
        let deleted := mkDeletionLog t LogStatus.DELETED ("") ("")
        (true, [deleted], (t.slug, some deleted))

/-- One iteration of the `process_deletions` loop body on the accumulated
(state, result-list) pair.  Dry-run creates a `DRY_RUN` log and mutates
nothing; otherwise `processOne` decides the log rows and whether the row
(with all its cascading children) is removed. -/
def procStep (mode : String) (dry : Bool) (eff : RetentionEffects)
    (acc : RetentionState × List (String × Option TournamentDeletionLog))
    (t : Tournament) :
    RetentionState × List (String × Option TournamentDeletionLog) :=
  if dry then
    let log := mkDeletionLog t LogStatus.DRY_RUN ("") ("")
    ({ acc.1 with logs := acc.1.logs ++ [log] }, acc.2 ++ [(t.slug, some log)])
  else
    let r := processOne mode eff t
    ({ tournaments :=
         if r.1 then acc.1.tournaments.filter (fun u => !(u.id == t.id))
         else acc.1.tournaments
       logs := acc.1.logs ++ r.2.1 },
     acc.2 ++ [r.2.2])

/-- `process_deletions(mode, dry_run)`: resolve the effective mode, then
run the loop body over the past-grace queryset (evaluated against the
incoming state). -/
def process_deletions (s : RetentionSettings) (mode : Option String)
    (dry : Bool) (eff : RetentionEffects) (now : Int) (st : RetentionState) :
    RetentionState × List (String × Option TournamentDeletionLog) :=
  let m := getMode s mode
  (get_scheduled_for_deletion now st.tournaments).foldl
    (procStep m dry eff) (st, [])

/-- `run_retention_cycle(retention_days, mode, dry_run)`:
`schedule_eligible` followed by `process_deletions`, the single entry
point used by the management command and scheduler. -/
def run_retention_cycle (s : RetentionSettings) (retentionDays : Option Int)
    (mode : Option String) (dry : Bool) (eff : RetentionEffects) (now : Int)
    (st : RetentionState) :
    RetentionState × List (Tournament × TournamentDeletionLog)
      × List (String × Option TournamentDeletionLog) :=
  let sched := schedule_eligible s retentionDays dry now st
  let proc := process_deletions s mode dry eff now sched.1
  (proc.1, sched.2, proc.2)

/-! ## Retention management command
(`tabbycat/retention/management/commands/purge_tournaments.py`)

`Command.handle` ends by calling
`run_retention_cycle(retention_days=..., mode=..., dry_run=..., export_dir=...)`.
Python raises `TypeError` at call time whenever a keyword argument is
passed that is not among the callee's parameters; the call itself never
starts.  We embed the two signatures as keyword lists and the call-time
check as list inclusion. -/

/-- The parameter names of `retention.engine.run_retention_cycle`
(`def run_retention_cycle(retention_days=None, mode=None, dry_run=False)`). -/
def run_retention_cycle_param_names : List String :=
  [("retention_days"), ("mode"), ("dry_run")]

/-- The keyword arguments `Command.handle` passes to
`run_retention_cycle` on every invocation, for every flag combination. -/
def purge_command_call_kwargs : List String :=
  [("retention_days"), ("mode"), ("dry_run"), ("export_dir")]

/-- Python call-time check: every keyword argument must name a parameter
of the callee (none of the functions involved take `**kwargs`). -/
def pythonKwargsAccepted (params kwargs : List String) : Bool :=
  kwargs.all (fun k => params.contains k)

/-- Outcome of one run of the `purge_tournaments` command. -/
inductive CommandOutcome where
  | completed (exitCode : Nat)
  | typeErrorRaised
deriving DecidableEq, Repr

/-- The outcome of `Command.handle`: if the `run_retention_cycle` call
were accepted it would run to completion and the command would exit 0;
a rejected keyword raises `TypeError` out of `handle` instead. -/
def purge_tournaments_handle_outcome : CommandOutcome :=
  if pythonKwargsAccepted run_retention_cycle_param_names
      purge_command_call_kwargs then
    CommandOutcome.completed 0
  else
    CommandOutcome.typeErrorRaised

/-! ## Control-plane tenant provisioner
(`infrastructure/control-plane/app/provisioner.py`,
`infrastructure/control-plane/app/config.py`,
`infrastructure/control-plane/app/models.py`) -/

/-- `TenantStatus` enum. -/
inductive TenantStatus where
  | PENDING
  | PROVISIONING
  | ACTIVE
  | SUSPENDED
  | DELETED
  | ERROR
deriving DecidableEq, Repr

/-- One `Tenant` row, restricted to the fields `provision` writes. -/
structure Tenant where
  id : String
  subdomain : String
  name : String
  owner_email : Option String
  owner_id : Option String
  db_name : String
  db_user : String
  status : TenantStatus
  activated_at : Option Int
  plan : String
  cpu_limit : String
  memory_limit : String
deriving DecidableEq, Repr

/-- One `ProvisioningLog` row (append-only audit table). -/
structure ProvisioningLog where
  tenant_id : String
  action : String
  status : String
  message : Option String
  duration_ms : Option Nat
deriving DecidableEq, Repr

/-- The control-plane metadata database: the `tenants` table and the
append-only `provisioning_logs` table. -/
structure ControlPlaneState where
  tenants : List Tenant
  logs : List ProvisioningLog
deriving DecidableEq, Repr

/-- `Settings.reserved_subdomains` from `config.py`. -/
def reserved_subdomains : List String :=
  [("www"), ("admin"), ("api"), ("control"), ("traefik"),
   ("grafana"), ("prometheus"), ("mail"), ("ftp"), ("ssh"),
   ("database"), ("static"), ("media"), ("cdn"), ("assets")]

/-- Character class `[a-z0-9]`. -/
def isLowerAlnum (c : Char) : Bool :=
  (decide ('a' ≤ c) && decide (c ≤ 'z')) ||
    (decide ('0' ≤ c) && decide (c ≤ '9'))

/-- Whole-string match against `^[a-z0-9][a-z0-9-]{2,30}[a-z0-9]$`: a
string matches exactly when its length is between 4 and 32, its first and
last characters are in `[a-z0-9]`, and every character in between is in
`[a-z0-9-]` (the quantifier `{2,30}` over the middle class is what pins
the length bounds, and `[a-z0-9]` is contained in `[a-z0-9-]`, so greedy
matching succeeds exactly on strings of this shape). -/
def coreMatches (l : List Char) : Bool :=
  decide (4 ≤ l.length) && decide (l.length ≤ 32) &&
    (match l.head? with
     | some c => isLowerAlnum c
     | none => false) &&
    (match l.getLast? with
     | some c => isLowerAlnum c
     | none => false) &&
    ((l.drop 1).dropLast.all (fun c => isLowerAlnum c || c == '-'))

/-- Python `re.match(r'^[a-z0-9][a-z0-9-]{2,30}[a-z0-9]$', s)` as a
whole-string predicate: in Python's `re`, the anchor written as a dollar
matches at the end of the string OR just before a single trailing
newline, so `s` is accepted when `s` itself matches the core pattern or
when `s` ends in a newline whose removal leaves a match. -/
def pyMatchSubdomainPattern (s : String) : Bool :=
  coreMatches s.data ||
    ((s.data.getLast? == some '\n') && coreMatches s.data.dropLast)

/-- `TenantProvisioner._validate_subdomain`: raise `ProvisioningError`
(modelled as `Except.error` with the message) when the regex does not
match or the subdomain is reserved; pure, touches no state.  The source's
reserved-word message quotes the subdomain; the quoting characters are
elided here. -/
def validate_subdomain (s : String) : Except String Unit :=
  if !pyMatchSubdomainPattern s then
    Except.error
      ("Subdomain must be 4-32 characters, lowercase alphanumeric with hyphens")
  else if reserved_subdomains.contains s then
    Except.error (s ++ " is a reserved subdomain")
  else
    Except.ok ()

/-- The spec sentence's reading of the pattern check, for refinement
comparison with the code: the string `s` itself, in its entirety, matches
`^[a-z0-9][a-z0-9-]{2,30}[a-z0-9]$`. -/
def spec_pattern_matches (s : String) : Bool :=
  coreMatches s.data

/-- Injected effects for one `provision` call.  `gen_tenant_id` stands
for `_generate_tenant_id` (first 12 hex chars of SHA-256 of the
subdomain — an external crypto primitive, kept abstract).  The four step
oracles model `_create_database`, `_deploy_docker_stack`,
`_wait_for_healthy` and `_run_migrations`; `Except.error m` means the
step raised an exception rendering to `m`.  `domain` is
`settings.domain`, `duration_ms` the elapsed wall clock captured for the
final audit entry, `activation_time` the `datetime.utcnow()` stamped on
success. -/
structure ProvisionEffects where
  gen_tenant_id : String → String
  create_database : Except String Unit
  deploy_stack : Except String Unit
  wait_healthy : Bool
  run_migrations : Except String Unit
  domain : String
  cpu_limit : String
  memory_limit : String
  duration_ms : Nat
  activation_time : Int

/-- The `try`-block of `provision`: create the database, deploy the
stack, require health within the timeout (a timeout raises
`ProvisioningError("Service failed to become healthy")`), then run
migrations — strictly in this order, stopping at the first failure. -/
def provisionSteps (eff : ProvisionEffects) : Except String Unit := do
  eff.create_database
  eff.deploy_stack
  if eff.wait_healthy then pure ()
  else Except.error ("Service failed to become healthy")
  eff.run_migrations

/-- The `Tenant(...)` row `provision` inserts, in `PROVISIONING` status,
with the hash-derived id and the deterministic database name and user
derived from it. -/
def provisionTenantRow (eff : ProvisionEffects) (subdomain : String)
    (owner_email owner_id nameArg : Option String) (plan : String) : Tenant :=
  { id := eff.gen_tenant_id subdomain
    subdomain := subdomain
    name := nameArg.getD subdomain
    owner_email := owner_email
    owner_id := owner_id
    db_name := ("nekotab_") ++ eff.gen_tenant_id subdomain
    db_user := ("tenant_") ++ eff.gen_tenant_id subdomain
    status := TenantStatus.PROVISIONING
    activated_at := none
    plan := plan
    cpu_limit := eff.cpu_limit
    memory_limit := eff.memory_limit }

/-- One `_log_action(tenant_id, action, status, message, duration_ms)`
insert into the append-only audit table. -/
def provisionLogRow (tid action status : String) (message : Option String)
    (dur : Option Nat) : ProvisioningLog :=
  { tenant_id := tid
    action := action
    status := status
    message := message
    duration_ms := dur }

/-- `TenantProvisioner.provision(subdomain, owner_email, owner_id, name,
plan)`.  Validation runs first and a failure there returns before any
state is touched.  The duplicate check queries the incoming state.  Then
the tenant row is inserted in `PROVISIONING` status and a
`create/started` audit row is written; the step block runs; on success
the row is marked `ACTIVE` with an activation timestamp and a
`create/success` audit row (with elapsed duration) is written; on any
step failure the row is marked `ERROR`, a `create/failed` audit row with
`message = str(e)` and the elapsed duration is written, and
`ProvisioningError(f"Provisioning failed: {e}")` is re-raised.  The row
is never removed. -/
def provision (eff : ProvisionEffects) (subdomain : String)
    (owner_email owner_id nameArg : Option String) (plan : String)
    (st : ControlPlaneState) : ControlPlaneState × Except String Tenant :=
  match validate_subdomain subdomain with
  | Except.error m => (st, Except.error m)
  | Except.ok _ =>
    if st.tenants.any (fun u => u.subdomain == subdomain) then
      (st, Except.error (("Subdomain ") ++ subdomain ++ (" already exists")))
    else
      let tid := eff.gen_tenant_id subdomain
      let tenant := provisionTenantRow eff subdomain owner_email owner_id
        nameArg plan
      let st1 : ControlPlaneState :=
        { tenants := st.tenants ++ [tenant]
          logs := st.logs ++ [provisionLogRow tid ("create") ("started") none none] }
      match provisionSteps eff with
      | Except.ok _ =>
        let st2 : ControlPlaneState :=
          { tenants :=
              st1.tenants.map (fun u =>
                if u.id == tid then
                  { u with status := TenantStatus.ACTIVE
                           activated_at := some eff.activation_time }
                else u)
            logs := st1.logs ++
              [provisionLogRow tid ("create") ("success")
                (some (("Tenant provisioned at ") ++ subdomain ++ (".")
                  ++ eff.domain))
                (some eff.duration_ms)] }
        (st2, Except.ok
          ({ tenant with status := TenantStatus.ACTIVE
                         activated_at := some eff.activation_time }))
      | Except.error m =>
        let st2 : ControlPlaneState :=
          { tenants :=
              st1.tenants.map (fun u =>
                if u.id == tid then { u with status := TenantStatus.ERROR }
                else u)
            logs := st1.logs ++
              [provisionLogRow tid ("create") ("failed") (some m)
                (some eff.duration_ms)] }
        (st2, Except.error (("Provisioning failed: ") ++ m))

/-! ## Export engine (`tabbycat/retention/exporters.py`) -/

/-- A Python value as seen by the column resolver `_get_value`: `None`, a
plain (stringly rendered) scalar, or an object exposing named
attributes.  Scalars expose none of the attribute names used in column
specs, so `getattr(scalar, p, '')` yields the empty-string default. -/
inductive PyVal where
  | vnone
  | vstr (s : String)
  | vobj (fields : List (String × PyVal))
deriving Repr

/-- Attribute lookup in an object's field table. -/
def lookupField (p : String) : List (String × PyVal) → Option PyVal
  | [] => none
  | (k, v) :: rest => if k == p then some v else lookupField p rest

/-- Python `getattr(val, p, '')`: the attribute when present, the default
empty string otherwise (also for `None` and scalar receivers). -/
def pyGetattr (v : PyVal) (p : String) : PyVal :=
  match v with
  | PyVal.vobj fields =>
    match lookupField p fields with
    | some w => w
    | none => PyVal.vstr ("")
  | _ => PyVal.vstr ("")

/-- The loop of `_get_value` over the already-split parts: at each part,
a `None` current value short-circuits to the empty string; otherwise the
defaulted `getattr` advances; after the loop a `None` result is replaced
by the empty string. -/
def resolveParts : PyVal → List String → PyVal
  | v, [] =>
    (match v with
     | PyVal.vnone => PyVal.vstr ("")
     | w => w)
  | PyVal.vnone, _ :: _ => PyVal.vstr ("")
  | v, p :: rest => resolveParts (pyGetattr v p) rest

/-- Python `col.split('__')`: split on the two-character separator,
left to right, non-overlapping; an empty input yields one empty chunk. -/
def splitSep : List Char → List (List Char)
  | [] => [[]]
  | '_' :: '_' :: rest => [] :: splitSep rest
  | c :: rest =>
    match splitSep rest with
    | [] => [[c]]
    | cur :: more => (c :: cur) :: more

/-- `_get_value(obj, col)`: split the dunder path and run the resolver
loop. -/
def get_value (obj : PyVal) (col : String) : PyVal :=
  resolveParts obj ((splitSep col.data).map (fun cs => String.mk cs))

/-- Rendering of a resolved value into a CSV cell (Python `str`). -/
def renderValue : PyVal → String
  | PyVal.vnone => ("None")
  | PyVal.vstr s => s
  | PyVal.vobj _ => ("object")

/-- Characters that force quoting under `csv.writer`'s minimal quoting:
the delimiter, the quote character, and the line-terminator characters. -/
def csvSpecialChar (c : Char) : Bool :=
  (c == ',') || (c == '"') || (c == '\r') || (c == '\n')

/-- Double every quote character (the quoted-field escape). -/
def escapeQuotes : List Char → List Char
  | [] => []
  | c :: rest =>
    if c == '"' then '"' :: '"' :: escapeQuotes rest
    else c :: escapeQuotes rest

/-- One CSV field under minimal quoting: quoted (with doubled inner
quotes) exactly when the cell contains a special character. -/
def csvField (s : String) : List Char :=
  if s.data.any csvSpecialChar then '"' :: (escapeQuotes s.data ++ ['"'])
  else s.data

/-- Join cells with the comma delimiter. -/
def intercalateComma : List (List Char) → List Char
  | [] => []
  | [x] => x
  | x :: rest => x ++ ',' :: intercalateComma rest

/-- One `csv.writer.writerow` output: delimited cells plus the default
`\r\n` terminator. -/
def csvRowChars (cells : List String) : List Char :=
  intercalateComma (cells.map csvField) ++ ['\r', '\n']

/-- The body of one table's CSV: the header row listing the column specs,
then one row per object with each cell resolved by `_get_value` (the
batched slice loop enumerates the queryset in order, each row exactly
once). -/
def tableCSVChars (cols : List String) (rows : List PyVal) : List Char :=
  csvRowChars cols ++
    rows.foldr
      (fun r acc =>
        csvRowChars (cols.map (fun c => renderValue (get_value r c))) ++ acc)
      []

/-- The fixed `CSV_TABLES` registry: each output filename with its
declared column list, in source order (the queryset builders are data
oracles in this embedding, keyed by filename). -/
def CSV_TABLES : List (String × List String) :=
  [ (("tournament.csv"),
     [("id"), ("name"), ("short_name"), ("slug"), ("active"), ("created_at")]),
    (("rounds.csv"),
     [("id"), ("seq"), ("name"), ("abbreviation"), ("stage"), ("draw_type"),
      ("draw_status"), ("completed"), ("silent"), ("motions_released"),
      ("feedback_weight"), ("starts_at"), ("weight")]),
    (("institutions.csv"),
     [("id"), ("institution__name"), ("institution__code"),
      ("institution__region__name"),
      ("teams_requested"), ("teams_allocated"),
      ("adjudicators_requested"), ("adjudicators_allocated")]),
    (("teams.csv"),
     [("id"), ("reference"), ("short_reference"), ("short_name"),
      ("long_name"), ("code_name"), ("institution__name"),
      ("use_institution_prefix"), ("emoji"), ("seed"), ("type")]),
    (("speakers.csv"),
     [("id"), ("name"), ("email"), ("gender"), ("team__short_name"),
      ("team__id"), ("anonymous"), ("code_name")]),
    (("adjudicators.csv"),
     [("id"), ("name"), ("email"), ("gender"), ("institution__name"),
      ("base_score"), ("trainee"), ("breaking"), ("independent"),
      ("adj_core")]),
    (("venues.csv"),
     [("id"), ("name"), ("priority")]),
    (("debates.csv"),
     [("id"), ("round__seq"), ("round__name"), ("venue__name"),
      ("bracket"), ("room_rank"), ("importance"), ("result_status"),
      ("sides_confirmed")]),
    (("debate_teams.csv"),
     [("id"), ("debate__id"), ("debate__round__seq"), ("team__short_name"),
      ("team__id"), ("side")]),
    (("debate_adjudicators.csv"),
     [("id"), ("debate__id"), ("debate__round__seq"),
      ("adjudicator__name"), ("adjudicator__id"), ("type")]),
    (("motions.csv"),
     [("id"), ("reference"), ("text"), ("info_slide")]),
    (("round_motions.csv"),
     [("id"), ("round__seq"), ("round__name"), ("motion__reference"),
      ("motion__id"), ("seq")]),
    (("ballots.csv"),
     [("id"), ("debate__id"), ("debate__round__seq"), ("version"),
      ("confirmed"), ("discarded"), ("timestamp"), ("submitter_type"),
      ("motion__reference"), ("forfeit"), ("single_adj")]),
    (("team_scores.csv"),
     [("id"), ("ballot_submission__id"), ("debate_team__team__short_name"),
      ("debate_team__team__id"), ("points"), ("win"), ("margin"), ("score"),
      ("votes_given"), ("votes_possible")]),
    (("speaker_scores.csv"),
     [("id"), ("ballot_submission__id"), ("speaker__name"), ("speaker__id"),
      ("debate_team__team__short_name"), ("score"), ("position"), ("ghost"),
      ("rank")]),
    (("feedback.csv"),
     [("id"), ("adjudicator__name"), ("adjudicator__id"), ("score"),
      ("confirmed"), ("ignored"), ("timestamp"), ("version")]),
    (("break_categories.csv"),
     [("id"), ("name"), ("slug"), ("seq"), ("break_size"), ("is_general"),
      ("priority"), ("rule")]),
    (("breaking_teams.csv"),
     [("id"), ("break_category__name"), ("team__short_name"), ("team__id"),
      ("rank"), ("break_rank"), ("remark")]),
    (("user_permissions.csv"),
     [("id"), ("user__username"), ("user__email"), ("permission")]),
    (("groups.csv"),
     [("id"), ("name"), ("permissions")]),
    (("schedule_events.csv"),
     [("id"), ("title"), ("type"), ("start_time"), ("end_time"),
      ("round__seq")]),
    (("adj_team_conflicts.csv"),
     [("id"), ("adjudicator__name"), ("adjudicator__id"),
      ("team__short_name"), ("team__id")]),
    (("adj_adj_conflicts.csv"),
     [("id"), ("adjudicator1__name"), ("adjudicator1__id"),
      ("adjudicator2__name"), ("adjudicator2__id")]),
    (("adj_institution_conflicts.csv"),
     [("id"), ("adjudicator__name"), ("adjudicator__id"),
      ("institution__name"), ("institution__id")]) ]

/-- The `_manifest.json` document written at the end of the archive. -/
structure Manifest where
  tournament_id : Nat
  tournament_name : String
  tournament_slug : String
  exported_at : String
  format : String
  tables : List String
deriving DecidableEq, Repr

/-- The data oracle standing for the queryset builders: the row objects
each registered table yields for the tournament being exported. -/
structure TournamentData where
  rows : String → List PyVal

/-- The manifest value `export_tournament_csv_zip` serializes into
`_manifest.json`. -/
def export_manifest (t : Tournament) (exportedAt : String) : Manifest :=
  { tournament_id := t.id
    tournament_name := t.name
    tournament_slug := t.slug
    exported_at := exportedAt
    format := ("multi-csv-zip")
    tables := CSV_TABLES.map (fun e => e.1) }

/-- Content of one zip member: a CSV file's text, or the JSON-serialized
manifest (kept structured here; `json.dumps` of the record). -/
inductive ZipContent where
  | csvFile (chars : List Char)
  | jsonManifest (m : Manifest)

/-- `export_tournament_csv_zip(tournament)`: the zip archive as its
ordered member list — one CSV per registry entry (written in registry
order), then `_manifest.json`. -/
def export_tournament_csv_zip (data : TournamentData) (t : Tournament)
    (exportedAt : String) : List (String × ZipContent) :=
  (CSV_TABLES.map (fun e =>
    (e.1, ZipContent.csvFile (tableCSVChars e.2 (data.rows e.1)))))
  ++ [(("_manifest.json"), ZipContent.jsonManifest (export_manifest t exportedAt))]

/-- The zip's namelist: member names in order. -/
def zipNamelist (ar : List (String × ZipContent)) : List String :=
  ar.map (fun e => e.1)

/-- The first (header) line of a CSV text: everything before the first
carriage return. -/
def firstLineChars (content : List Char) : List Char :=
  content.takeWhile (fun c => !(c == '\r'))

/-- Split a line on commas (inverse of `intercalateComma` on comma-free
cells), used to read the header back as its column list. -/
def splitComma : List Char → List (List Char)
  | [] => [[]]
  | c :: rest =>
    if c == ',' then [] :: splitComma rest
    else
      match splitComma rest with
      | [] => [[c]]
      | cur :: more => (c :: cur) :: more

/-- Well-formedness of a declared column list: non-empty, and no column
name contains a CSV special character (true of the whole registry, by
computation). -/
def colsWellFormed (cols : List String) : Bool :=
  !cols.isEmpty &&
    cols.all (fun c => c.data.all (fun ch => !(csvSpecialChar ch)))

/-! ## Concrete fixtures used by the closed witness instances -/

/-- A 120-day-old, non-exempt, unscheduled tournament. -/
def sampleTournament : Tournament :=
  { id := 1
    slug := ("autumn-open")
    name := ("Autumn Open")
    retention_exempt := false
    created_at := 0
    scheduled_for_deletion_at := none
    owner_email := ("owner@example.com")
    owner_username := ("owner")
    team_count := 8
    round_count := 5
    debate_count := 20 }

/-- An exempt tournament whose scheduled-deletion timestamp has passed. -/
def exemptScheduledTournament : Tournament :=
  { id := 2
    slug := ("kept-cup")
    name := ("Kept Cup")
    retention_exempt := true
    created_at := 0
    scheduled_for_deletion_at := some 0
    owner_email := ("")
    owner_username := ("")
    team_count := 3
    round_count := 2
    debate_count := 4 }

/-- A non-exempt tournament past its grace period. -/
def pastGraceTournament : Tournament :=
  { id := 3
    slug := ("spring-ipo")
    name := ("Spring IPO")
    retention_exempt := false
    created_at := 0
    scheduled_for_deletion_at := some 50
    owner_email := ("host@example.com")
    owner_username := ("host")
    team_count := 16
    round_count := 6
    debate_count := 48 }

/-- Retention effects whose export always raises. -/
def failingExportEffects : RetentionEffects :=
  { export_fn := fun _ => ExportResult.err ("disk full")
    delete_fn := fun _ => none }

/-- Retention effects where every step succeeds. -/
def okRetentionEffects : RetentionEffects :=
  { export_fn := fun t => ExportResult.ok (("/archives/") ++ t.slug)
    delete_fn := fun _ => none }

/-- Provision effects whose database-creation step raises. -/
def failingProvisionEffects : ProvisionEffects :=
  { gen_tenant_id := fun _ => ("abc123def456")
    create_database := Except.error ("connection refused")
    deploy_stack := Except.ok ()
    wait_healthy := true
    run_migrations := Except.ok ()
    domain := ("nekotab.app")
    cpu_limit := ("1.0")
    memory_limit := ("512M")
    duration_ms := 1200
    activation_time := 0 }

/-- A data oracle under which every registered table is empty. -/
def emptyTournamentData : TournamentData :=
  { rows := fun _ => [] }

/-! ## Loop characterization lemmas -/

theorem schedFold_dry (dat : Int) (ts : List Tournament) (st : RetentionState)
    (res : List (Tournament × TournamentDeletionLog)) :
    ts.foldl (schedStep true dat) (st, res)
      = ({ tournaments := st.tournaments
           logs := st.logs ++
             ts.map (fun t => mkDeletionLog t LogStatus.DRY_RUN ("") ("")) },
         res ++
           ts.map (fun t => (t, mkDeletionLog t LogStatus.DRY_RUN ("") ("")))) := by
  induction ts generalizing st res with
  | nil => simp
  | cons t ts ih =>
    simp only [List.foldl_cons, schedStep, if_true]
    rw [ih]
    simp

theorem sched_upd_point (dat : Int) (t : Tournament) (ts : List Tournament)
    (u : Tournament) :
    (if ts.any (fun t2 =>
          (if u.id == t.id then setScheduled dat u else u).id == t2.id) then
       setScheduled dat (if u.id == t.id then setScheduled dat u else u)
     else (if u.id == t.id then setScheduled dat u else u))
      = (if (u.id == t.id) || ts.any (fun t2 => u.id == t2.id) then
           setScheduled dat u
         else u) := by
  by_cases h : u.id == t.id <;>
    by_cases h2 : ts.any (fun t2 => u.id == t2.id) <;>
      simp_all [setScheduled]

theorem schedFold_wet (dat : Int) (ts : List Tournament) (st : RetentionState)
    (res : List (Tournament × TournamentDeletionLog)) :
    ts.foldl (schedStep false dat) (st, res)
      = ({ tournaments :=
             st.tournaments.map (fun u =>
               if ts.any (fun t2 => u.id == t2.id) then setScheduled dat u
               else u)
           logs := st.logs ++
             ts.map (fun t => mkDeletionLog t LogStatus.SCHEDULED ("") ("")) },
         res ++
           ts.map (fun t =>
             (setScheduled dat t,
              mkDeletionLog t LogStatus.SCHEDULED ("") ("")))) := by
  induction ts generalizing st res with
  | nil => simp
  | cons t ts ih =>
    simp only [List.foldl_cons, schedStep, if_false, Bool.false_eq_true]
    rw [ih]
    have hmap :
        ((fun u => if ts.any (fun t2 => u.id == t2.id) then setScheduled dat u
                   else u) ∘
          (fun u => if u.id == t.id then setScheduled dat u else u))
          = (fun u =>
              if (u.id == t.id) || ts.any (fun t2 => u.id == t2.id) then
                setScheduled dat u
              else u) := by
      funext u
      simpa using sched_upd_point dat t ts u
    simp only [List.map_map, hmap, List.map_cons, List.any_cons]
    simp

theorem procFold_dry (m : String) (eff : RetentionEffects)
    (ts : List Tournament) (st : RetentionState)
    (res : List (String × Option TournamentDeletionLog)) :
    ts.foldl (procStep m true eff) (st, res)
      = ({ tournaments := st.tournaments
           logs := st.logs ++
             ts.map (fun t => mkDeletionLog t LogStatus.DRY_RUN ("") ("")) },
         res ++
           ts.map (fun t =>
             (t.slug, some (mkDeletionLog t LogStatus.DRY_RUN ("") (""))))) := by
  induction ts generalizing st res with
  | nil => simp
  | cons t ts ih =>
    simp only [List.foldl_cons, procStep, if_true]
    rw [ih]
    simp

theorem proc_filter_point (m : String) (eff : RetentionEffects)
    (t : Tournament) (ts : List Tournament) (u : Tournament) :
    ((!(u.id == t.id) ||
        !(processOne m eff t).1) &&
      !(ts.any (fun t2 => (processOne m eff t2).1 && (u.id == t2.id))))
      = !((t :: ts).any (fun t2 => (processOne m eff t2).1 && (u.id == t2.id))) := by
  by_cases h1 : (processOne m eff t).1 <;>
    by_cases h2 : u.id == t.id <;>
      simp_all

theorem procFold_wet (m : String) (eff : RetentionEffects)
    (ts : List Tournament) (st : RetentionState)
    (res : List (String × Option TournamentDeletionLog)) :
    ts.foldl (procStep m false eff) (st, res)
      = ({ tournaments :=
             st.tournaments.filter (fun u =>
               !(ts.any (fun t2 => (processOne m eff t2).1 && (u.id == t2.id))))
           logs := st.logs ++
             (ts.map (fun t => (processOne m eff t).2.1)).flatten },
         res ++ ts.map (fun t => (processOne m eff t).2.2)) := by
  induction ts generalizing st res with
  | nil => simp
  | cons t ts ih =>
    simp only [List.foldl_cons, procStep, if_false, Bool.false_eq_true]
    rw [ih]
    by_cases hdel : (processOne m eff t).1
    · simp only [hdel, if_true, List.filter_filter]
      have hpred :
          (fun (u : Tournament) =>
              !(ts.any (fun t2 => (processOne m eff t2).1 && (u.id == t2.id))) &&
                !(u.id == t.id))
            = (fun (u : Tournament) =>
                !((t :: ts).any
                    (fun t2 => (processOne m eff t2).1 && (u.id == t2.id)))) := by
        funext u
        rw [← proc_filter_point m eff t ts u]
        by_cases h2 : u.id == t.id <;> simp_all [hdel, Bool.and_comm]
      simp only [hpred]
      simp
    · simp only [hdel, if_false]
      have hpred :
          (fun (u : Tournament) =>
              !(ts.any (fun t2 => (processOne m eff t2).1 && (u.id == t2.id))))
            = (fun (u : Tournament) =>
                !((t :: ts).any
                    (fun t2 => (processOne m eff t2).1 && (u.id == t2.id)))) := by
        funext u
        simp [List.any_cons, hdel]
      rw [hpred]
      simp

theorem processOne_logs_id (m : String) (eff : RetentionEffects)
    (u : Tournament) (l : TournamentDeletionLog)
    (hl : l ∈ (processOne m eff u).2.1) : l.tournament_id = u.id := by
  unfold processOne at hl
  by_cases hm : (m == "EXPORT_THEN_DELETE") = true
  · rw [if_pos hm] at hl
    cases hexp : eff.export_fn u <;> rw [hexp] at hl
    · cases hdel : eff.delete_fn u <;> rw [hdel] at hl <;> simp at hl <;>
        rcases hl with rfl | rfl <;> rfl
    · simp at hl
      subst hl
      rfl
  · rw [if_neg hm] at hl
    cases hdel : eff.delete_fn u <;> rw [hdel] at hl <;> simp at hl <;>
      subst hl <;> rfl

theorem processOne_export_err (eff : RetentionEffects) (t : Tournament)
    (msg : String) (hexp : eff.export_fn t = ExportResult.err msg) :
    processOne ("EXPORT_THEN_DELETE") eff t
      = (false, [mkDeletionLog t LogStatus.FAILED ("") msg], (t.slug, none)) := by
  unfold processOne
  simp [hexp]

theorem mem_get_eligible (s : RetentionSettings) (o : Option Int) (now : Int)
    (ts : List Tournament) (t : Tournament) :
    t ∈ get_eligible_tournaments s o now ts
      ↔ (t ∈ ts ∧ 0 < getRetentionDays s o ∧ t.retention_exempt = false ∧
          t.created_at ≤ now - getRetentionDays s o * secondsPerDay ∧
          t.scheduled_for_deletion_at = none) := by
  unfold get_eligible_tournaments
  by_cases hd : getRetentionDays s o ≤ 0
  · simp only [hd, if_true]
    simp
    omega
  · simp only [hd, if_false]
    simp only [List.mem_filter, Bool.and_eq_true, decide_eq_true_eq,
      Option.isNone_iff_eq_none, Bool.not_eq_eq_eq_not, Bool.not_true]
    constructor
    · rintro ⟨hmem, ⟨⟨hex, hcr⟩, hsc⟩⟩
      exact ⟨hmem, by omega, by simpa using hex, hcr, hsc⟩
    · rintro ⟨hmem, hpos, hex, hcr, hsc⟩
      exact ⟨hmem, ⟨⟨by simpa using hex, hcr⟩, hsc⟩⟩

theorem mem_get_scheduled (now : Int) (ts : List Tournament)
    (t : Tournament) :
    t ∈ get_scheduled_for_deletion now ts
      ↔ (t ∈ ts ∧ t.retention_exempt = false ∧
          ∃ d, t.scheduled_for_deletion_at = some d ∧ d ≤ now) := by
  unfold get_scheduled_for_deletion
  simp only [List.mem_filter, Bool.and_eq_true, Bool.not_eq_eq_eq_not,
    Bool.not_true]
  constructor
  · rintro ⟨hmem, hex, hsc⟩
    refine ⟨hmem, by simpa using hex, ?_⟩
    cases hs : t.scheduled_for_deletion_at with
    | none => rw [hs] at hsc; simp at hsc
    | some d =>
      rw [hs] at hsc
      simp only [decide_eq_true_eq] at hsc
      exact ⟨d, rfl, hsc⟩
  · rintro ⟨hmem, hex, d, hs, hd⟩
    refine ⟨hmem, by simpa using hex, ?_⟩
    rw [hs]
    simpa using hd

theorem ids_nodup_filter (p : Tournament → Bool) (ts : List Tournament)
    (h : (ts.map Tournament.id).Nodup) :
    ((ts.filter p).map Tournament.id).Nodup :=
  h.sublist ((List.filter_sublist ts).map Tournament.id)

theorem ids_inj (ts : List Tournament) (h : (ts.map Tournament.id).Nodup)
    (a b : Tournament) (ha : a ∈ ts) (hb : b ∈ ts) (hab : a.id = b.id) :
    a = b :=
  List.inj_on_of_nodup_map h ha hb hab

/-! ## Claim theorems -/

/-- C4: `get_eligible(retention_days)` returns exactly the collections
that are not exempt, created no later than now minus the retention
window, and not yet scheduled; it is empty whenever the effective
retention window is ≤ 0; and an exempt collection never appears in the
result regardless of its age. -/
theorem claim_c4_get_eligible (s : RetentionSettings) (o : Option Int)
    (now : Int) (ts : List Tournament) :
    (∀ t, t ∈ get_eligible_tournaments s o now ts ↔
        (t ∈ ts ∧ 0 < getRetentionDays s o ∧ t.retention_exempt = false ∧
         t.created_at ≤ now - getRetentionDays s o * secondsPerDay ∧
         t.scheduled_for_deletion_at = none)) ∧
    (getRetentionDays s o ≤ 0 → get_eligible_tournaments s o now ts = []) ∧
    (∀ t ∈ get_eligible_tournaments s o now ts, t.retention_exempt = false) := by
  refine ⟨fun t => mem_get_eligible s o now ts t, ?_, ?_⟩
  · intro h
    unfold get_eligible_tournaments
    simp [h]
  · intro t ht
    exact ((mem_get_eligible s o now ts t).mp ht).2.2.1

/-- Witness for C4: a 120-day-old tournament is eligible under a 90-day
policy, and a zero-day policy yields the empty list. -/
theorem claim_c4_witness :
    sampleTournament ∈
      get_eligible_tournaments ⟨90, ("EXPORT_THEN_DELETE"), 24⟩ none
        (120 * secondsPerDay) [sampleTournament] ∧
    get_eligible_tournaments ⟨0, ("EXPORT_THEN_DELETE"), 24⟩ none 0
      [sampleTournament] = [] := by
  constructor
  · exact ((claim_c4_get_eligible ⟨90, ("EXPORT_THEN_DELETE"), 24⟩ none
      (120 * secondsPerDay) [sampleTournament]).1 sampleTournament).mpr
      (by refine ⟨by decide, by decide, by decide, by decide, by decide⟩)
  · exact (claim_c4_get_eligible ⟨0, ("EXPORT_THEN_DELETE"), 24⟩ none 0
      [sampleTournament]).2.1 (by decide)

/-- C6: the claim says every flag combination of the retention CLI runs
the cycle to completion and exits 0.  In the code, `Command.handle`
always passes the keyword `export_dir` to
`retention.engine.run_retention_cycle`, whose parameter list does not
contain it, so Python raises `TypeError` before the cycle starts — on
every invocation, for every flag combination.  (The repository's own
tests, e.g. `test_export_dir_override` and `test_command_dry_run`, call
the same code paths and expect them to succeed.) -/
theorem claim_c6_export_dir_type_error :
    purge_tournaments_handle_outcome = CommandOutcome.typeErrorRaised ∧
    pythonKwargsAccepted run_retention_cycle_param_names
      purge_command_call_kwargs = false ∧
    (("export_dir") ∈ purge_command_call_kwargs ∧
     ("export_dir") ∉ run_retention_cycle_param_names) := by
  refine ⟨by decide, by decide, by decide, by decide⟩

/-- C7: a full dry-run cycle never mutates any tournament's
scheduled-deletion timestamp and never deletes a row — the tournament
table is returned exactly as it was — and the only writes are appended
`DRY_RUN` deletion-log entries. -/
theorem claim_c7_dry_run_no_op (s : RetentionSettings) (d : Option Int)
    (m : Option String) (eff : RetentionEffects) (now : Int)
    (st : RetentionState) :
    (run_retention_cycle s d m true eff now st).1.tournaments
      = st.tournaments ∧
    ∃ L, (run_retention_cycle s d m true eff now st).1.logs = st.logs ++ L ∧
      ∀ l ∈ L, l.status = LogStatus.DRY_RUN := by
  unfold run_retention_cycle schedule_eligible process_deletions
  simp only [schedFold_dry, procFold_dry]
  refine ⟨trivial, ?_⟩
  refine ⟨(get_eligible_tournaments s d now st.tournaments).map
      (fun t => mkDeletionLog t LogStatus.DRY_RUN ("") ("")) ++
    (get_scheduled_for_deletion now st.tournaments).map
      (fun t => mkDeletionLog t LogStatus.DRY_RUN ("") ("")), ?_, ?_⟩
  · simp [List.append_assoc]
  · intro l hl
    rcases List.mem_append.mp hl with h | h <;>
      rcases List.mem_map.mp h with ⟨t, _, rfl⟩ <;> rfl

/-- Witness for C7 at a concrete state holding an eligible and a
past-grace tournament. -/
theorem claim_c7_witness :
    (run_retention_cycle ⟨90, ("EXPORT_THEN_DELETE"), 24⟩ none none true
        okRetentionEffects (120 * secondsPerDay)
        ⟨[sampleTournament, pastGraceTournament], []⟩).1.tournaments
      = [sampleTournament, pastGraceTournament] ∧
    ∃ L,
      (run_retention_cycle ⟨90, ("EXPORT_THEN_DELETE"), 24⟩ none none true
          okRetentionEffects (120 * secondsPerDay)
          ⟨[sampleTournament, pastGraceTournament], []⟩).1.logs = [] ++ L ∧
      ∀ l ∈ L, l.status = LogStatus.DRY_RUN :=
  claim_c7_dry_run_no_op ⟨90, ("EXPORT_THEN_DELETE"), 24⟩ none none
    okRetentionEffects (120 * secondsPerDay)
    ⟨[sampleTournament, pastGraceTournament], []⟩

/-- Counterexample to C5 as stated: `exemptScheduledTournament` has a
non-null scheduled-deletion timestamp that is ≤ now, so the claim says it
is returned, but the query also filters on `retention_exempt=False` and
excludes it. -/
theorem claim_c5_counterexample :
    exemptScheduledTournament.scheduled_for_deletion_at = some 0 ∧
    ((0 : Int) ≤ 0) ∧
    exemptScheduledTournament ∉
      get_scheduled_for_deletion 0 [exemptScheduledTournament] := by
  refine ⟨rfl, le_refl 0, ?_⟩
  decide

/-- C5 (amended): `get_scheduled_past_grace()` returns exactly the
collections that are NOT retention-exempt and whose scheduled-deletion
timestamp is non-null and ≤ now; scheduling an eligible collection with
grace_hours=48 followed immediately by the query returns the empty set,
while grace_hours=0 makes the same query include the collection. -/
theorem claim_c5_amended :
    (∀ (now : Int) (ts : List Tournament) (t : Tournament),
       t ∈ get_scheduled_for_deletion now ts ↔
         (t ∈ ts ∧ t.retention_exempt = false ∧
          ∃ d2, t.scheduled_for_deletion_at = some d2 ∧ d2 ≤ now)) ∧
    (∀ (s : RetentionSettings) (d : Option Int) (now : Int)
       (st : RetentionState) (t : Tournament),
       getGraceHours s = 48 →
       t ∈ get_eligible_tournaments s d now st.tournaments →
       st.tournaments = [t] →
       get_scheduled_for_deletion now
         (schedule_eligible s d false now st).1.tournaments = []) ∧
    (∀ (s : RetentionSettings) (d : Option Int) (now : Int)
       (st : RetentionState) (t : Tournament),
       getGraceHours s = 0 →
       t ∈ get_eligible_tournaments s d now st.tournaments →
       st.tournaments = [t] →
       get_scheduled_for_deletion now
         (schedule_eligible s d false now st).1.tournaments
         = [setScheduled now t]) := by
  refine ⟨fun now ts t => mem_get_scheduled now ts t, ?_, ?_⟩
  · intro s d now st t hg ht hst
    rw [hst] at ht
    rcases (mem_get_eligible s d now [t] t).mp ht with ⟨_, hpos, hex, hcr, hsc⟩
    have hd0 : ¬ (getRetentionDays s d ≤ 0) := by omega
    have helig : get_eligible_tournaments s d now [t] = [t] := by
      unfold get_eligible_tournaments
      rw [if_neg hd0]
      simp [List.filter, hex, hcr, hsc]
    unfold schedule_eligible
    rw [schedFold_wet]
    rw [show st.tournaments = [t] from hst, helig]
    simp only [List.map_cons, List.map_nil, List.any_cons, List.any_nil,
      beq_self_eq_true, Bool.true_or, if_true, Bool.or_false]
    unfold get_scheduled_for_deletion
    rw [hg]
    simp only [List.filter, setScheduled, hex]
    have : ¬ (now + 48 * secondsPerHour ≤ now) := by
      have h48 : (48 : Int) * secondsPerHour = 172800 := by
        norm_num [secondsPerHour]
      rw [h48]
      omega
    simp [this]
  · intro s d now st t hg ht hst
    rw [hst] at ht
    rcases (mem_get_eligible s d now [t] t).mp ht with ⟨_, hpos, hex, hcr, hsc⟩
    have hd0 : ¬ (getRetentionDays s d ≤ 0) := by omega
    have helig : get_eligible_tournaments s d now [t] = [t] := by
      unfold get_eligible_tournaments
      rw [if_neg hd0]
      simp [List.filter, hex, hcr, hsc]
    unfold schedule_eligible
    rw [schedFold_wet]
    rw [show st.tournaments = [t] from hst, helig]
    have hdat : now + getGraceHours s * secondsPerHour = now := by
      rw [hg]
      ring
    rw [hdat]
    simp only [List.map_cons, List.map_nil, List.any_cons, List.any_nil,
      beq_self_eq_true, Bool.true_or, if_true, Bool.or_false]
    unfold get_scheduled_for_deletion
    simp [List.filter, setScheduled, hex]

/-- Witness for C5 (amended): the grace-48 and grace-0 scenarios at a
concrete eligible tournament. -/
theorem claim_c5_amended_witness :
    get_scheduled_for_deletion (120 * secondsPerDay)
      (schedule_eligible ⟨90, ("EXPORT_THEN_DELETE"), 48⟩ none false
        (120 * secondsPerDay) ⟨[sampleTournament], []⟩).1.tournaments = [] ∧
    get_scheduled_for_deletion (120 * secondsPerDay)
      (schedule_eligible ⟨90, ("EXPORT_THEN_DELETE"), 0⟩ none false
        (120 * secondsPerDay) ⟨[sampleTournament], []⟩).1.tournaments
      = [setScheduled (120 * secondsPerDay) sampleTournament] := by
  constructor
  · exact claim_c5_amended.2.1 ⟨90, ("EXPORT_THEN_DELETE"), 48⟩ none
      (120 * secondsPerDay) ⟨[sampleTournament], []⟩ sampleTournament rfl
      (by decide) rfl
  · exact claim_c5_amended.2.2 ⟨90, ("EXPORT_THEN_DELETE"), 0⟩ none
      (120 * secondsPerDay) ⟨[sampleTournament], []⟩ sampleTournament rfl
      (by decide) rfl

theorem get_scheduled_ids_nodup (now : Int) (ts : List Tournament)
    (h : (ts.map Tournament.id).Nodup) :
    ((get_scheduled_for_deletion now ts).map Tournament.id).Nodup := by
  unfold get_scheduled_for_deletion
  exact ids_nodup_filter _ _ h

theorem get_eligible_ids_nodup (s : RetentionSettings) (d : Option Int)
    (now : Int) (ts : List Tournament)
    (h : (ts.map Tournament.id).Nodup) :
    ((get_eligible_tournaments s d now ts).map Tournament.id).Nodup := by
  unfold get_eligible_tournaments
  by_cases hd : getRetentionDays s d ≤ 0
  · rw [if_pos hd]
    simp
  · rw [if_neg hd]
    exact ids_nodup_filter _ _ h

/-- C1: with mode `EXPORT_THEN_DELETE`, when the export raises for a
past-grace collection, `process_deletions` leaves that collection's row
(and hence its scheduled-deletion timestamp and all its dependent data)
untouched in the table, appends a `FAILED` deletion-log entry carrying
the exception's (non-empty) message, and creates no `DELETED` entry for
that collection in this cycle. -/
theorem claim_c1_export_failure_leaves_intact
    (s : RetentionSettings) (mo : Option String) (eff : RetentionEffects)
    (now : Int) (st : RetentionState) (t : Tournament) (m : String)
    (hmode : getMode s mo = ("EXPORT_THEN_DELETE"))
    (ht : t ∈ get_scheduled_for_deletion now st.tournaments)
    (hexp : eff.export_fn t = ExportResult.err m)
    (hm : m ≠ (""))
    (hids : (st.tournaments.map Tournament.id).Nodup) :
    t ∈ (process_deletions s mo false eff now st).1.tournaments ∧
    ∃ L, (process_deletions s mo false eff now st).1.logs = st.logs ++ L ∧
      mkDeletionLog t LogStatus.FAILED ("") m ∈ L ∧
      (mkDeletionLog t LogStatus.FAILED ("") m).error_message ≠ ("") ∧
      ∀ l ∈ L, l.tournament_id = t.id → l.status ≠ LogStatus.DELETED := by
  have htids : ((get_scheduled_for_deletion now st.tournaments).map
      Tournament.id).Nodup := get_scheduled_ids_nodup now st.tournaments hids
  have htmem : t ∈ st.tournaments :=
    ((mem_get_scheduled now st.tournaments t).mp ht).1
  unfold process_deletions
  rw [hmode, procFold_wet]
  constructor
  · simp only [List.mem_filter]
    refine ⟨htmem, ?_⟩
    simp only [Bool.not_eq_eq_eq_not, Bool.not_true, List.any_eq_false]
    intro t2 ht2
    by_cases hid : t.id = t2.id
    · have ht2t : t2 = t :=
        List.inj_on_of_nodup_map htids ht2 ht hid.symm
      subst ht2t
      rw [processOne_export_err eff t2 m hexp]
      simp
    · simp [hid]
  · refine ⟨((get_scheduled_for_deletion now st.tournaments).map
        (fun t2 => (processOne ("EXPORT_THEN_DELETE") eff t2).2.1)).flatten,
      rfl, ?_, hm, ?_⟩
    · refine List.mem_flatten.mpr
        ⟨(processOne ("EXPORT_THEN_DELETE") eff t).2.1,
         List.mem_map.mpr ⟨t, ht, rfl⟩, ?_⟩
      rw [processOne_export_err eff t m hexp]
      simp
    · intro l hl hid
      obtain ⟨Ls, hLs, hlin⟩ := List.mem_flatten.mp hl
      obtain ⟨t2, ht2, rfl⟩ := List.mem_map.mp hLs
      have hlid := processOne_logs_id _ eff t2 l hlin
      have ht2t : t2 = t :=
        List.inj_on_of_nodup_map htids ht2 ht (by omega)
      subst ht2t
      rw [processOne_export_err eff t2 m hexp] at hlin
      simp only [List.mem_cons, List.not_mem_nil, or_false] at hlin
      subst hlin
      simp [mkDeletionLog]

/-- Witness for C1 at a concrete past-grace tournament whose export
raises with message "disk full". -/
theorem claim_c1_witness :
    pastGraceTournament ∈
      (process_deletions ⟨90, ("EXPORT_THEN_DELETE"), 24⟩ none false
        failingExportEffects 100 ⟨[pastGraceTournament], []⟩).1.tournaments ∧
    ∃ L,
      (process_deletions ⟨90, ("EXPORT_THEN_DELETE"), 24⟩ none false
          failingExportEffects 100 ⟨[pastGraceTournament], []⟩).1.logs
        = [] ++ L ∧
      mkDeletionLog pastGraceTournament LogStatus.FAILED ("") ("disk full")
        ∈ L ∧
      (mkDeletionLog pastGraceTournament LogStatus.FAILED ("")
        ("disk full")).error_message ≠ ("") ∧
      ∀ l ∈ L, l.tournament_id = pastGraceTournament.id →
        l.status ≠ LogStatus.DELETED :=
  claim_c1_export_failure_leaves_intact ⟨90, ("EXPORT_THEN_DELETE"), 24⟩ none
    failingExportEffects 100 ⟨[pastGraceTournament], []⟩ pastGraceTournament
    ("disk full") rfl (by decide) rfl (by decide) (by decide)

theorem schedule_eligible_tournaments_eq (s : RetentionSettings)
    (d : Option Int) (now : Int) (st : RetentionState) :
    (schedule_eligible s d false now st).1.tournaments
      = st.tournaments.map (fun u =>
          if (get_eligible_tournaments s d now st.tournaments).any
              (fun t2 => u.id == t2.id) then
            setScheduled (now + getGraceHours s * secondsPerHour) u
          else u) := by
  unfold schedule_eligible
  rw [schedFold_wet]

theorem schedule_eligible_logs_eq (s : RetentionSettings)
    (d : Option Int) (now : Int) (st : RetentionState) :
    (schedule_eligible s d false now st).1.logs
      = st.logs ++ (get_eligible_tournaments s d now st.tournaments).map
          (fun t2 => mkDeletionLog t2 LogStatus.SCHEDULED ("") ("")) := by
  unfold schedule_eligible
  rw [schedFold_wet]

theorem countP_id_eq_one (elig : List Tournament)
    (hnodup : (elig.map Tournament.id).Nodup) (t : Tournament)
    (ht : t ∈ elig) :
    elig.countP (fun t2 => t2.id == t.id) = 1 := by
  induction elig with
  | nil => cases ht
  | cons a l ih =>
    simp only [List.map_cons, List.nodup_cons] at hnodup
    rw [List.countP_cons]
    rcases List.mem_cons.mp ht with rfl | hmem
    · have hz : l.countP (fun t2 => t2.id == t.id) = 0 := by
        rw [List.countP_eq_zero]
        intro t2 ht2
        simp only [beq_iff_eq]
        intro hcontra
        exact hnodup.1 (hcontra ▸ List.mem_map.mpr ⟨t2, ht2, rfl⟩)
      simp [hz]
    · have hpa : (a.id == t.id) = false := by
        simp only [beq_eq_false_iff_ne, ne_eq]
        intro hcontra
        exact hnodup.1 (hcontra ▸ List.mem_map.mpr ⟨t, hmem, rfl⟩)
      simp [hpa, ih hnodup.2 hmem]

/-- C8: scheduling an eligible collection (non-dry-run) sets its
scheduled-deletion timestamp to now + grace_hours and creates exactly one
SCHEDULED log entry for it; running `schedule_eligible` again immediately
afterwards leaves that collection's row unchanged and creates no further
log entry for it (an already-scheduled collection is never rescheduled). -/
theorem claim_c8_schedule_idempotent (s : RetentionSettings)
    (d : Option Int) (now : Int) (st : RetentionState) (t : Tournament)
    (ht : t ∈ get_eligible_tournaments s d now st.tournaments)
    (hids : (st.tournaments.map Tournament.id).Nodup) :
    (setScheduled (now + getGraceHours s * secondsPerHour) t
        ∈ (schedule_eligible s d false now st).1.tournaments) ∧
    (∃ L, (schedule_eligible s d false now st).1.logs = st.logs ++ L ∧
       L.countP (fun l => (l.tournament_id == t.id) &&
         (l.status == LogStatus.SCHEDULED)) = 1) ∧
    (∀ (d2 : Option Int) (now2 : Int),
       setScheduled (now + getGraceHours s * secondsPerHour) t
           ∈ (schedule_eligible s d2 false now2
               (schedule_eligible s d false now st).1).1.tournaments ∧
       ∃ L2, (schedule_eligible s d2 false now2
           (schedule_eligible s d false now st).1).1.logs
             = (schedule_eligible s d false now st).1.logs ++ L2 ∧
         ∀ l ∈ L2, l.tournament_id ≠ t.id) := by
  have htmem : t ∈ st.tournaments :=
    ((mem_get_eligible s d now st.tournaments t).mp ht).1
  have hany : (get_eligible_tournaments s d now st.tournaments).any
      (fun t2 => t.id == t2.id) = true :=
    List.any_eq_true.mpr ⟨t, ht, by simp⟩
  have hmem1 : setScheduled (now + getGraceHours s * secondsPerHour) t
      ∈ (schedule_eligible s d false now st).1.tournaments := by
    rw [schedule_eligible_tournaments_eq]
    refine List.mem_map.mpr ⟨t, htmem, ?_⟩
    rw [hany]
    simp
  have hids1 : ((schedule_eligible s d false now st).1.tournaments.map
      Tournament.id).Nodup := by
    rw [schedule_eligible_tournaments_eq, List.map_map]
    have hfun : (Tournament.id ∘ fun u =>
        if (get_eligible_tournaments s d now st.tournaments).any
            (fun t2 => u.id == t2.id) then
          setScheduled (now + getGraceHours s * secondsPerHour) u
        else u) = Tournament.id := by
      funext u
      by_cases h : (get_eligible_tournaments s d now st.tournaments).any
          (fun t2 => u.id == t2.id) = true
      · rw [Function.comp_apply, h]
        simp [setScheduled]
      · rw [Bool.not_eq_true] at h
        rw [Function.comp_apply, h]
        simp
    rw [hfun]
    exact hids
  refine ⟨hmem1, ?_, ?_⟩
  · refine ⟨(get_eligible_tournaments s d now st.tournaments).map
        (fun t2 => mkDeletionLog t2 LogStatus.SCHEDULED ("") ("")),
      schedule_eligible_logs_eq s d now st, ?_⟩
    rw [List.countP_map]
    have hcomp : ((fun l => (l.tournament_id == t.id) &&
          (l.status == LogStatus.SCHEDULED)) ∘
        (fun t2 => mkDeletionLog t2 LogStatus.SCHEDULED ("") ("")))
          = fun t2 => t2.id == t.id := by
      funext t2
      simp [mkDeletionLog]
    rw [hcomp]
    exact countP_id_eq_one _ (get_eligible_ids_nodup s d now _ hids) t ht
  · intro d2 now2
    have hnotelig : ∀ t2 ∈ get_eligible_tournaments s d2 now2
        (schedule_eligible s d false now st).1.tournaments, t2.id ≠ t.id := by
      intro t2 ht2 hcontra
      have ht2mem : t2 ∈ (schedule_eligible s d false now st).1.tournaments :=
        ((mem_get_eligible s d2 now2 _ t2).mp ht2).1
      have ht2sched : t2.scheduled_for_deletion_at = none :=
        ((mem_get_eligible s d2 now2 _ t2).mp ht2).2.2.2.2
      have hteq : t2 = setScheduled (now + getGraceHours s * secondsPerHour) t :=
        List.inj_on_of_nodup_map hids1 ht2mem hmem1
          (by simpa [setScheduled] using hcontra)
      rw [hteq] at ht2sched
      simp [setScheduled] at ht2sched
    have hanyfalse : (get_eligible_tournaments s d2 now2
        (schedule_eligible s d false now st).1.tournaments).any
          (fun t2 => (setScheduled (now + getGraceHours s * secondsPerHour)
            t).id == t2.id) = false := by
      rw [List.any_eq_false]
      intro t2 ht2
      have hne := hnotelig t2 ht2
      simp only [setScheduled, beq_iff_eq]
      intro hcontra
      exact hne (by omega)
    constructor
    · rw [schedule_eligible_tournaments_eq]
      refine List.mem_map.mpr
        ⟨setScheduled (now + getGraceHours s * secondsPerHour) t, hmem1, ?_⟩
      rw [hanyfalse]
      simp
    · refine ⟨(get_eligible_tournaments s d2 now2
          (schedule_eligible s d false now st).1.tournaments).map
            (fun t2 => mkDeletionLog t2 LogStatus.SCHEDULED ("") ("")),
        schedule_eligible_logs_eq s d2 now2 _, ?_⟩
      intro l hl
      obtain ⟨t2, ht2, rfl⟩ := List.mem_map.mp hl
      have := hnotelig t2 ht2
      simpa [mkDeletionLog] using this

/-- Witness for C8: scheduling the concrete eligible tournament under a
90-day, 24-hour-grace policy. -/
theorem claim_c8_witness :
    (setScheduled (120 * secondsPerDay + 24 * secondsPerHour) sampleTournament
        ∈ (schedule_eligible ⟨90, ("EXPORT_THEN_DELETE"), 24⟩ none false
            (120 * secondsPerDay) ⟨[sampleTournament], []⟩).1.tournaments) ∧
    (∃ L, (schedule_eligible ⟨90, ("EXPORT_THEN_DELETE"), 24⟩ none false
          (120 * secondsPerDay) ⟨[sampleTournament], []⟩).1.logs = [] ++ L ∧
       L.countP (fun l => (l.tournament_id == sampleTournament.id) &&
         (l.status == LogStatus.SCHEDULED)) = 1) := by
  have h := claim_c8_schedule_idempotent ⟨90, ("EXPORT_THEN_DELETE"), 24⟩ none
    (120 * secondsPerDay) ⟨[sampleTournament], []⟩ sampleTournament
    (by decide) (by decide)
  exact ⟨h.1, h.2.1⟩

/-- Counterexample to C3 as stated: the string consisting of "abcd"
followed by a newline does not match
`^[a-z0-9][a-z0-9-]{2,30}[a-z0-9]$` as a whole string and is not
reserved, so the claim says validation fails on it — but Python's
`re.match` lets the dollar anchor match just before a trailing newline,
so `_validate_subdomain` accepts it. -/
theorem claim_c3_counterexample :
    validate_subdomain ("abcd\n") = Except.ok () ∧
    spec_pattern_matches ("abcd\n") = false ∧
    reserved_subdomains.contains ("abcd\n") = false := by
  refine ⟨rfl, by decide, by decide⟩

/-- C3 (amended): validation succeeds exactly when the string matches
the pattern under Python `re.match` semantics (where the dollar anchor
also matches just before one trailing newline) and is not reserved; any
string that matches the pattern as a whole string and is not reserved is
accepted; and a validation failure in `provision` returns before any
side effect, leaving the state untouched. -/
theorem claim_c3_validate (s : String) :
    ((validate_subdomain s).isOk = true ↔
      (pyMatchSubdomainPattern s = true ∧
        reserved_subdomains.contains s = false)) ∧
    (spec_pattern_matches s = true →
      reserved_subdomains.contains s = false →
      validate_subdomain s = Except.ok ()) ∧
    (∀ (eff : ProvisionEffects) (oe oi na : Option String) (plan : String)
       (st : ControlPlaneState) (em : String),
       validate_subdomain s = Except.error em →
       provision eff s oe oi na plan st = (st, Except.error em)) := by
  refine ⟨?_, ?_, ?_⟩
  · unfold validate_subdomain
    cases hp : pyMatchSubdomainPattern s <;>
      cases hr : reserved_subdomains.contains s <;>
        simp [hp, hr, Except.isOk, Except.toBool]
  · intro hcore hr
    have hp : pyMatchSubdomainPattern s = true := by
      unfold pyMatchSubdomainPattern
      unfold spec_pattern_matches at hcore
      rw [hcore]
      simp
    unfold validate_subdomain
    rw [hp, hr]
    simp
  · intro eff oe oi na plan st em hval
    unfold provision
    rw [hval]

/-- Witness for C3 (amended): a well-formed, unreserved subdomain is
accepted, and a validation failure returns the state untouched. -/
theorem claim_c3_validate_witness :
    validate_subdomain ("my-tournament-2025") = Except.ok () ∧
    provision failingProvisionEffects ("ab") none none none ("free") ⟨[], []⟩
      = (⟨[], []⟩,
         Except.error
           ("Subdomain must be 4-32 characters, lowercase alphanumeric with hyphens")) := by
  constructor
  · exact (claim_c3_validate ("my-tournament-2025")).2.1 (by decide) (by decide)
  · exact (claim_c3_validate ("ab")).2.2 failingProvisionEffects none none none
      ("free") ⟨[], []⟩ _ rfl

/-- C2: if validation and the duplicate check pass but any subsequent
step fails with message `m`, the tenant row still exists with status
`ERROR` (never rolled back or deleted), a `create`/`failed` audit entry
with the (non-empty) message and an elapsed duration is written, the call
re-raises the failure wrapped as `ProvisioningError`, and no tenant with
that subdomain is `ACTIVE`. -/
theorem claim_c2_provision_failure
    (eff : ProvisionEffects) (subdomain : String)
    (oe oi na : Option String) (plan : String) (st : ControlPlaneState)
    (m : String)
    (hval : validate_subdomain subdomain = Except.ok ())
    (hdup : st.tenants.any (fun u => u.subdomain == subdomain) = false)
    (hsteps : provisionSteps eff = Except.error m)
    (hm : m ≠ ("")) :
    (provision eff subdomain oe oi na plan st).2
        = Except.error (("Provisioning failed: ") ++ m) ∧
    (∃ u ∈ (provision eff subdomain oe oi na plan st).1.tenants,
       u.subdomain = subdomain ∧ u.status = TenantStatus.ERROR) ∧
    (∃ lg ∈ (provision eff subdomain oe oi na plan st).1.logs,
       lg.action = ("create") ∧ lg.status = ("failed") ∧
       lg.message = some m ∧ m ≠ ("") ∧
       lg.duration_ms = some eff.duration_ms) ∧
    (∀ u ∈ (provision eff subdomain oe oi na plan st).1.tenants,
       u.subdomain = subdomain → u.status ≠ TenantStatus.ACTIVE) := by
  have hprov : provision eff subdomain oe oi na plan st
      = ({ tenants :=
             (st.tenants ++
               [provisionTenantRow eff subdomain oe oi na plan]).map (fun u =>
                 if u.id == eff.gen_tenant_id subdomain then
                   { u with status := TenantStatus.ERROR }
                 else u)
           logs := (st.logs ++
               [provisionLogRow (eff.gen_tenant_id subdomain) ("create")
                 ("started") none none]) ++
             [provisionLogRow (eff.gen_tenant_id subdomain) ("create")
               ("failed") (some m) (some eff.duration_ms)] },
         Except.error (("Provisioning failed: ") ++ m)) := by
    unfold provision
    rw [hval, hdup, hsteps]
    rfl
  rw [hprov]
  refine ⟨rfl, ?_, ?_, ?_⟩
  · refine ⟨{ provisionTenantRow eff subdomain oe oi na plan with
        status := TenantStatus.ERROR }, ?_, rfl, rfl⟩
    refine List.mem_map.mpr ⟨provisionTenantRow eff subdomain oe oi na plan,
      List.mem_append.mpr (Or.inr (by simp)), ?_⟩
    simp [provisionTenantRow]
  · refine ⟨provisionLogRow (eff.gen_tenant_id subdomain) ("create")
      ("failed") (some m) (some eff.duration_ms), ?_, rfl, rfl, rfl, hm, rfl⟩
    exact List.mem_append.mpr (Or.inr (by simp))
  · intro u hu hus
    obtain ⟨v, hv, rfl⟩ := List.mem_map.mp hu
    rcases List.mem_append.mp hv with hvs | hvt
    · exfalso
      have hvne : (v.subdomain == subdomain) = false := by
        have h := List.any_eq_false.mp hdup v hvs
        simpa using h
      by_cases hid : v.id == eff.gen_tenant_id subdomain <;>
        simp only [hid, if_true, if_false] at hus <;>
        rw [show ({ v with status := TenantStatus.ERROR } :
            Tenant).subdomain = v.subdomain from rfl] at * <;>
        simp_all
    · simp only [List.mem_cons, List.not_mem_nil, or_false] at hvt
      subst hvt
      by_cases hid : (provisionTenantRow eff subdomain oe oi na plan).id ==
          eff.gen_tenant_id subdomain
      · simp only [hid, if_true]
        intro hcontra
        cases hcontra
      · exfalso
        simp [provisionTenantRow] at hid

/-- Witness for C2: a concrete provision call against an empty control
plane whose database-creation step raises "connection refused". -/
theorem claim_c2_witness :
    (provision failingProvisionEffects ("acme-debates") none none none
        ("free") ⟨[], []⟩).2
      = Except.error (("Provisioning failed: ") ++ ("connection refused")) ∧
    (∃ u ∈ (provision failingProvisionEffects ("acme-debates") none none none
        ("free") ⟨[], []⟩).1.tenants,
       u.subdomain = ("acme-debates") ∧ u.status = TenantStatus.ERROR) ∧
    (∃ lg ∈ (provision failingProvisionEffects ("acme-debates") none none none
        ("free") ⟨[], []⟩).1.logs,
       lg.action = ("create") ∧ lg.status = ("failed") ∧
       lg.message = some ("connection refused") ∧
       ("connection refused") ≠ ("") ∧
       lg.duration_ms = some failingProvisionEffects.duration_ms) ∧
    (∀ u ∈ (provision failingProvisionEffects ("acme-debates") none none none
        ("free") ⟨[], []⟩).1.tenants,
       u.subdomain = ("acme-debates") → u.status ≠ TenantStatus.ACTIVE) :=
  claim_c2_provision_failure failingProvisionEffects ("acme-debates") none
    none none ("free") ⟨[], []⟩ ("connection refused") rfl rfl rfl (by decide)

theorem resolveParts_vnone (parts : List String) :
    resolveParts PyVal.vnone parts = PyVal.vstr ("") := by
  cases parts <;> rfl

theorem resolveParts_vstr_empty (parts : List String) :
    resolveParts (PyVal.vstr ("")) parts = PyVal.vstr ("") := by
  induction parts with
  | nil => rfl
  | cons p rest ih => exact ih

theorem resolveParts_ne_vnone (parts : List String) (v : PyVal) :
    resolveParts v parts ≠ PyVal.vnone := by
  induction parts generalizing v with
  | nil => cases v <;> simp [resolveParts]
  | cons p rest ih =>
    cases v with
    | vnone => simp [resolveParts]
    | vstr s => exact ih (pyGetattr (PyVal.vstr s) p)
    | vobj f => exact ih (pyGetattr (PyVal.vobj f) p)

theorem resolveParts_missing_attr (fields : List (String × PyVal))
    (p : String) (rest : List String)
    (hlook : lookupField p fields = none) :
    resolveParts (PyVal.vobj fields) (p :: rest) = PyVal.vstr ("") := by
  have hg : pyGetattr (PyVal.vobj fields) p = PyVal.vstr ("") := by
    simp [pyGetattr, hlook]
  calc resolveParts (PyVal.vobj fields) (p :: rest)
      = resolveParts (pyGetattr (PyVal.vobj fields) p) rest := rfl
    _ = resolveParts (PyVal.vstr ("")) rest := by rw [hg]
    _ = PyVal.vstr ("") := resolveParts_vstr_empty rest

theorem resolveParts_none_attr (fields : List (String × PyVal))
    (p : String) (rest : List String)
    (hlook : lookupField p fields = some PyVal.vnone) :
    resolveParts (PyVal.vobj fields) (p :: rest) = PyVal.vstr ("") := by
  have hg : pyGetattr (PyVal.vobj fields) p = PyVal.vnone := by
    simp [pyGetattr, hlook]
  calc resolveParts (PyVal.vobj fields) (p :: rest)
      = resolveParts (pyGetattr (PyVal.vobj fields) p) rest := rfl
    _ = resolveParts PyVal.vnone rest := by rw [hg]
    _ = PyVal.vstr ("") := resolveParts_vnone rest

/-- C10: the column-value resolver `_get_value` is total — for every
object and every dotted-path column it evaluates to a value (in
particular never to `None`, hence never raising): a `None` starting
value or a `None` intermediate attribute yields the empty string, and a
missing attribute continues the traversal with the empty string so a
misspelled column name also yields an empty cell. -/
theorem claim_c10_resolver_total (obj : PyVal) (col : String) :
    (get_value obj col
      = resolveParts obj ((splitSep col.data).map (fun cs => String.mk cs))) ∧
    (∀ parts, resolveParts obj parts ≠ PyVal.vnone) ∧
    (∀ parts, resolveParts PyVal.vnone parts = PyVal.vstr ("")) ∧
    (∀ (fields : List (String × PyVal)) (p : String) (rest : List String),
       lookupField p fields = none →
       resolveParts (PyVal.vobj fields) (p :: rest) = PyVal.vstr ("")) ∧
    (∀ (fields : List (String × PyVal)) (p : String) (rest : List String),
       lookupField p fields = some PyVal.vnone →
       resolveParts (PyVal.vobj fields) (p :: rest) = PyVal.vstr ("")) :=
  ⟨rfl, fun parts => resolveParts_ne_vnone parts obj,
   resolveParts_vnone, resolveParts_missing_attr, resolveParts_none_attr⟩

/-- Witness for C10: a broken reference (`team` is `None`) and a
misspelled column name both resolve to the empty string. -/
theorem claim_c10_witness :
    get_value (PyVal.vobj [(("team"), PyVal.vnone)])
      ("team__institution__name") = PyVal.vstr ("") ∧
    get_value (PyVal.vobj [(("name"), PyVal.vstr ("A"))]) ("nmae")
      = PyVal.vstr ("") := by
  constructor
  · rw [(claim_c10_resolver_total (PyVal.vobj [(("team"), PyVal.vnone)])
      ("team__institution__name")).1]
    show resolveParts (PyVal.vobj [(("team"), PyVal.vnone)])
      (("team") :: [("institution"), ("name")]) = PyVal.vstr ("")
    exact (claim_c10_resolver_total (PyVal.vobj [(("team"), PyVal.vnone)])
      ("team__institution__name")).2.2.2.2 _ _ _ rfl
  · rw [(claim_c10_resolver_total (PyVal.vobj [(("name"), PyVal.vstr ("A"))])
      ("nmae")).1]
    show resolveParts (PyVal.vobj [(("name"), PyVal.vstr ("A"))])
      (("nmae") :: []) = PyVal.vstr ("")
    exact (claim_c10_resolver_total (PyVal.vobj [(("name"), PyVal.vstr ("A"))])
      ("nmae")).2.2.2.1 _ _ _ rfl

theorem clean_char_facts (c : Char) (h : csvSpecialChar c = false) :
    (c == ',') = false ∧ (c == '\r') = false := by
  unfold csvSpecialChar at h
  simp only [Bool.or_eq_false_iff] at h
  exact ⟨h.1.1.1, h.1.2⟩

theorem takeWhile_append_stop (l1 l2 : List Char)
    (h : ∀ c ∈ l1, (c == '\r') = false) :
    (l1 ++ '\r' :: l2).takeWhile (fun c => !(c == '\r')) = l1 := by
  induction l1 with
  | nil => simp [List.takeWhile]
  | cons c cs ih =>
    have hc : (c == '\r') = false := h c (List.mem_cons_self c cs)
    simp only [List.cons_append, List.takeWhile_cons, hc]
    simp only [Bool.not_false, if_true]
    rw [ih (fun c2 hc2 => h c2 (List.mem_cons_of_mem c hc2))]

theorem splitComma_no_comma (l : List Char)
    (h : ∀ c ∈ l, (c == ',') = false) :
    splitComma l = [l] := by
  induction l with
  | nil => rfl
  | cons c cs ih =>
    have hc : (c == ',') = false := h c (List.mem_cons_self c cs)
    have hrest := ih (fun c2 hc2 => h c2 (List.mem_cons_of_mem c hc2))
    simp [splitComma, hc, hrest]

theorem splitComma_append (x rest : List Char) (cur : List Char)
    (more : List (List Char))
    (hx : ∀ c ∈ x, (c == ',') = false)
    (hrest : splitComma rest = cur :: more) :
    splitComma (x ++ rest) = (x ++ cur) :: more := by
  induction x with
  | nil => simpa using hrest
  | cons c cs ih =>
    have hc : (c == ',') = false := hx c (List.mem_cons_self c cs)
    have hih := ih (fun c2 hc2 => hx c2 (List.mem_cons_of_mem c hc2))
    simp [List.cons_append, splitComma, hc, hih]

theorem splitComma_intercalate (cells : List (List Char)) (hne : cells ≠ [])
    (hc : ∀ cell ∈ cells, ∀ c ∈ cell, (c == ',') = false) :
    splitComma (intercalateComma cells) = cells := by
  induction cells with
  | nil => exact absurd rfl hne
  | cons x cs ih =>
    cases cs with
    | nil =>
      exact splitComma_no_comma x (hc x (List.mem_cons_self x []))
    | cons y ys =>
      have hih : splitComma (intercalateComma (y :: ys)) = y :: ys :=
        ih (by simp) (fun cell hcell => hc cell (List.mem_cons_of_mem x hcell))
      have hstep : splitComma (',' :: intercalateComma (y :: ys))
          = [] :: (y :: ys) := by
        simp only [splitComma]
        rw [hih]
        simp
      have := splitComma_append x (',' :: intercalateComma (y :: ys)) []
        (y :: ys) (fun c hcc => hc x (List.mem_cons_self x (y :: ys)) c hcc)
        hstep
      simpa using this

theorem mem_intercalateComma (cells : List (List Char)) (c : Char)
    (hc : c ∈ intercalateComma cells) :
    c = ',' ∨ ∃ cell ∈ cells, c ∈ cell := by
  induction cells with
  | nil => cases hc
  | cons x cs ih =>
    cases cs with
    | nil =>
      simp only [intercalateComma] at hc
      exact Or.inr ⟨x, List.mem_cons_self x [], hc⟩
    | cons y ys =>
      simp only [intercalateComma] at hc
      rcases List.mem_append.mp hc with hx | hrest
      · exact Or.inr ⟨x, List.mem_cons_self x (y :: ys), hx⟩
      · rcases List.mem_cons.mp hrest with rfl | htail
        · exact Or.inl rfl
        · rcases ih htail with h | ⟨cell, hcell, hcc⟩
          · exact Or.inl h
          · exact Or.inr ⟨cell, List.mem_cons_of_mem x hcell, hcc⟩

theorem csvField_clean (s : String)
    (h : s.data.all (fun ch => !(csvSpecialChar ch)) = true) :
    csvField s = s.data := by
  unfold csvField
  rw [if_neg ?hneg]
  case hneg =>
    intro hany
    rcases List.any_eq_true.mp hany with ⟨c, hcm, hcs⟩
    have hcf := List.all_eq_true.mp h c hcm
    rw [hcs] at hcf
    simp at hcf

theorem intercalateComma_no_cr (cols : List String)
    (hclean : ∀ c ∈ cols, c.data.all (fun ch => !(csvSpecialChar ch)) = true) :
    ∀ c ∈ intercalateComma (cols.map String.data), (c == '\r') = false := by
  intro c hc
  rcases mem_intercalateComma _ c hc with rfl | ⟨cell, hcell, hcc⟩
  · rfl
  · obtain ⟨s, hs, rfl⟩ := List.mem_map.mp hcell
    have hall := List.all_eq_true.mp (hclean s hs) c hcc
    have hsp : csvSpecialChar c = false := by
      simpa using hall
    exact (clean_char_facts c hsp).2

theorem tableCSV_first_line (cols : List String) (rows : List PyVal)
    (hclean : ∀ c ∈ cols, c.data.all (fun ch => !(csvSpecialChar ch)) = true) :
    firstLineChars (tableCSVChars cols rows)
      = intercalateComma (cols.map String.data) := by
  unfold tableCSVChars firstLineChars csvRowChars
  have hmap : cols.map csvField = cols.map String.data :=
    List.map_congr_left (fun c hc => csvField_clean c (hclean c hc))
  rw [hmap, List.append_assoc]
  exact takeWhile_append_stop _ _ (intercalateComma_no_cr cols hclean)

/-- The whole registry has well-formed column lists: every table has at
least one column and no column name contains a CSV special character. -/
theorem csv_tables_wf : CSV_TABLES.all (fun e => colsWellFormed e.2) = true := by
  decide

/-- C9: `export_csv_zip` produces an archive whose namelist contains
`_manifest.json` and every filename of the fixed table registry, whose
manifest lists the full registry in its `tables` field, and each CSV
file's first (header) line consists of exactly that table's declared
column names, comma-separated, in declared order. -/
theorem claim_c9_archive_complete (data : TournamentData) (t : Tournament)
    (exportedAt : String) :
    (("_manifest.json")
        ∈ zipNamelist (export_tournament_csv_zip data t exportedAt)) ∧
    (∀ e ∈ CSV_TABLES,
       e.1 ∈ zipNamelist (export_tournament_csv_zip data t exportedAt)) ∧
    (∀ m, (("_manifest.json"), ZipContent.jsonManifest m)
          ∈ export_tournament_csv_zip data t exportedAt →
       m.tables = CSV_TABLES.map (fun e => e.1)) ∧
    (∀ e ∈ CSV_TABLES,
       (e.1, ZipContent.csvFile (tableCSVChars e.2 (data.rows e.1)))
           ∈ export_tournament_csv_zip data t exportedAt ∧
       splitComma (firstLineChars (tableCSVChars e.2 (data.rows e.1)))
         = e.2.map String.data) := by
  refine ⟨?_, ?_, ?_, ?_⟩
  · unfold zipNamelist export_tournament_csv_zip
    simp
  · intro e he
    unfold zipNamelist export_tournament_csv_zip
    rw [List.map_append]
    refine List.mem_append.mpr (Or.inl ?_)
    rw [List.map_map]
    exact List.mem_map.mpr ⟨e, he, rfl⟩
  · intro m hm
    unfold export_tournament_csv_zip at hm
    rcases List.mem_append.mp hm with hl | hr
    · exfalso
      obtain ⟨e, he, heq⟩ := List.mem_map.mp hl
      exact ZipContent.noConfusion (congrArg Prod.snd heq)
    · simp only [List.mem_cons, List.not_mem_nil, or_false] at hr
      have hmani : ZipContent.jsonManifest m
          = ZipContent.jsonManifest (export_manifest t exportedAt) :=
        congrArg Prod.snd hr
      have hm2 : m = export_manifest t exportedAt := by
        cases hmani
        rfl
      rw [hm2]
      rfl
  · intro e he
    have hwfall := List.all_eq_true.mp csv_tables_wf e he
    have hwf : colsWellFormed e.2 = true := by simpa using hwfall
    unfold colsWellFormed at hwf
    simp only [Bool.and_eq_true] at hwf
    have hne : e.2 ≠ [] := by
      intro hcontra
      rw [hcontra] at hwf
      simp at hwf
    have hclean : ∀ c ∈ e.2,
        c.data.all (fun ch => !(csvSpecialChar ch)) = true :=
      List.all_eq_true.mp hwf.2
    constructor
    · unfold export_tournament_csv_zip
      refine List.mem_append.mpr (Or.inl ?_)
      exact List.mem_map.mpr ⟨e, he, rfl⟩
    · rw [tableCSV_first_line e.2 (data.rows e.1) hclean]
      refine splitComma_intercalate (e.2.map String.data) ?_ ?_
      · simpa using hne
      · intro cell hcell c hcc
        obtain ⟨s, hs, rfl⟩ := List.mem_map.mp hcell
        have hall := List.all_eq_true.mp (hclean s hs) c hcc
        have hsp : csvSpecialChar c = false := by simpa using hall
        exact (clean_char_facts c hsp).1

/-- Witness for C9 at the empty data oracle and a concrete tournament. -/
theorem claim_c9_witness :
    (("_manifest.json") ∈ zipNamelist
      (export_tournament_csv_zip emptyTournamentData sampleTournament
        ("2026-01-01T00:00:00"))) ∧
    (("tournament.csv") ∈ zipNamelist
      (export_tournament_csv_zip emptyTournamentData sampleTournament
        ("2026-01-01T00:00:00"))) ∧
    splitComma (firstLineChars (tableCSVChars
        [("id"), ("name"), ("short_name"), ("slug"), ("active"),
         ("created_at")]
        (emptyTournamentData.rows ("tournament.csv"))))
      = [("id"), ("name"), ("short_name"), ("slug"), ("active"),
         ("created_at")].map String.data := by
  have h := claim_c9_archive_complete emptyTournamentData sampleTournament
    ("2026-01-01T00:00:00")
  have he : (("tournament.csv"),
      [("id"), ("name"), ("short_name"), ("slug"), ("active"),
       ("created_at")]) ∈ CSV_TABLES := by decide
  exact ⟨h.1, (h.2.1 _ he), (h.2.2.2 _ he).2⟩
